import Mathlib

/-!
Verification development for the ongaku-server library synchronization pipeline
(`src/scanner.rs` and the track table migration).

The definitions below are a shallow embedding of the scanner source:

* Rust machine integers are modelled as `Nat`/`Int` with explicit wrapping
  where the source casts (`as i32`).
* `chrono::DateTime<Utc>` timestamps are modelled as `Int` (the Unix epoch is
  `0`; chrono can represent instants long before the epoch, so timestamps may
  be negative).
* Strings are treated as their character lists (the scanner only ever slices
  ASCII tag values, where Rust's byte indexing agrees with character
  indexing).
* The database table is modelled as a list of `Track` rows; the unique
  constraint on `path` from the migration is the `PathsNodup` predicate.
* Fallible operations return `Option`/`Except`; a Rust panic is a distinguished
  `ReadOutcome.panicked` outcome.
-/

namespace Ongaku

/-! ## Rust numeric primitives -/

/-- Result of the Rust cast `as i32` applied to an unsigned integer
(`u32 as i32` or `u64 as i32`): truncate to 32 bits, then reinterpret as
two's complement. -/
def asI32 (n : Nat) : Int :=
  if n % 4294967296 < 2147483648 then ((n % 4294967296 : Nat) : Int)
  else ((n % 4294967296 : Nat) : Int) - 4294967296

/-- Numeric value of a decimal digit character, if it is one. -/
def digitVal? (c : Char) : Option Nat :=
  if c.isDigit then some (c.toNat - 48) else none

/-- Accumulate the value of a digit string; fails on any non-digit. -/
def digitsValAux : List Char → Nat → Option Nat
  | [], acc => some acc
  | c :: rest, acc =>
    match digitVal? c with
    | some d => digitsValAux rest (acc * 10 + d)
    | none => none

/-- Value of a nonempty all-digit character list. -/
def digitsVal? : List Char → Option Nat
  | [] => none
  | l => digitsValAux l 0

/-- Model of Rust `str::parse::<i32>()`: an optional sign followed by one or
more decimal digits, rejecting anything else and any value outside the i32
range. -/
def parseI32 (s : String) : Option Int :=
  match s.toList with
  | '+' :: rest =>
    (digitsVal? rest).bind (fun n => if (n : Int) ≤ 2147483647 then some (n : Int) else none)
  | '-' :: rest =>
    (digitsVal? rest).bind (fun n => if (n : Int) ≤ 2147483648 then some (-(n : Int)) else none)
  | l =>
    (digitsVal? l).bind (fun n => if (n : Int) ≤ 2147483647 then some (n : Int) else none)

/-! ## String helpers used by `read_tags` -/

/-- Model of `s.split('/').next()`: the portion of the string before the first
slash (the whole string when no slash occurs).  `split` always yields at least
one item, so `next()` never fails. -/
def takeBeforeSlash (s : String) : String :=
  String.mk (s.toList.takeWhile (fun c => c ≠ '/'))

/-- Parse the numerator of an `N/Total` style value, as done by
`s.split('/').next()?.parse::<i32>().ok()`. -/
def slashNumerator (s : String) : Option Int :=
  parseI32 (takeBeforeSlash s)

/-- Model of the year parsing rule applied to free-form date values:
`if s.len() >= 4 { s[0..4].parse::<i32>().ok() } else { s.parse::<i32>().ok() }`. -/
def parseYearString (s : String) : Option Int :=
  let l := s.toList
  if 4 ≤ l.length then parseI32 (String.mk (l.take 4)) else parseI32 s

/-- Model of stripping the debug wrapper from unknown tag keys, as done with
the regex `Unknown\("(.+)"\)` whose match is replaced by its capture: a string
of the exact shape `Unknown("K")` with nonempty `K` becomes `K`, anything else
is returned unchanged. -/
def stripUnknown (s : String) : String :=
  let l := s.toList
  if 12 ≤ l.length ∧ l.take 9 = ['U','n','k','n','o','w','n','(','"']
      ∧ l.drop (l.length - 2) = ['"',')'] then
    String.mk ((l.drop 9).take (l.length - 11))
  else s

/-- Model of `Path::extension()` composed with
`.unwrap_or_default().to_str().unwrap_or("")`: the part of the file name after
its last dot, or the empty string when the file name has no dot or its only
dot is the leading character. -/
def fileNameChars (path : String) : List Char :=
  (path.toList.reverse.takeWhile (fun c => c ≠ '/')).reverse

def extensionOf (path : String) : String :=
  let f := fileNameChars path
  let revExt := f.reverse.takeWhile (fun c => c ≠ '.')
  if revExt.length = f.length then ""
  else if revExt.length + 1 = f.length then ""
  else String.mk revExt.reverse

/-! ## Tag model -/

/-- One item of a file's tag set, as seen by the loop over `tag.items()`.
`keyDebug` is the string produced by `format!("{:?}", item.key())`; `value`
is the item's textual value, `none` standing for a binary value which
`into_string()` cannot convert (the source then coerces it to `""`). -/
structure TagItem where
  keyDebug : String
  value : Option String
deriving DecidableEq

/-- The selected tag set of a probed file, recording exactly the accessor
results `read_tags` consumes: `title`/`artist`/`album`/`genre` accessors, the
`get_string(&ItemKey::…)` lookups, the structured `track()` and `year()`
values (`u32` in lofty, hence `Nat`), and the raw item list feeding the
free-form tag dictionary. -/
structure TagSet where
  items : List TagItem
  title : Option String
  artist : Option String
  album : Option String
  genre : Option String
  albumArtistStr : Option String
  publisherStr : Option String
  catalogNumberStr : Option String
  discNumberStr : Option String
  trackNumberStr : Option String
  trackVal : Option Nat
  yearVal : Option Nat
deriving DecidableEq

/-- Audio properties block of the probed file; each technical property is
optional exactly as lofty's accessors are (`duration().as_secs()` is a `u64`
and always available). -/
structure AudioProps where
  durationSecs : Nat
  audioBitrate : Option Nat
  overallBitrate : Option Nat
  sampleRate : Option Nat
  bitDepth : Option Nat
  channels : Option Nat
deriving DecidableEq

/-- What probing a candidate file can observe: a probe/read failure
(`Probe::open` or `probe.read()` returning `Err`), or a successfully probed
audio file with its properties and its primary/first tag sets. -/
inductive FileContent where
  | probeFail
  | audio (props : AudioProps) (primaryTag : Option TagSet) (firstTag : Option TagSet)
deriving DecidableEq

/-- A candidate regular file as the scanner sees it: its UTF-8 path, the
filesystem `created()` timestamp when the platform provides one, the
`modified()` timestamp, and the probe-able content. -/
structure FileEntry where
  path : String
  createdTime : Option Int
  mtime : Int
  content : FileContent
deriving DecidableEq

/-- HashMap insertion on an association-list model: a later insert for an
existing key replaces its value. -/
def insertTag : List (String × String) → String × String → List (String × String)
  | [], kv => [kv]
  | (k, v) :: rest, kv =>
    if k == kv.1 then (k, kv.2) :: rest else (k, v) :: insertTag rest kv

/-- The `all_tags` dictionary built by `read_tags`: every item's key is
debug-formatted, stripped of the `Unknown("…")` wrapper, and mapped to the
item's textual value (binary values coerced to the empty string). -/
def tagsMapOf (items : List TagItem) : List (String × String) :=
  items.foldl (fun m it => insertTag m (stripUnknown it.keyDebug, it.value.getD "")) []

/-- Lookup in the association-list model of `all_tags`. -/
def lookupTag : List (String × String) → String → Option String
  | [], _ => none
  | (k, v) :: rest, p => if k == p then some v else lookupTag rest p

def allTagsOf (tag : TagSet) : List (String × String) :=
  tagsMapOf tag.items

/-! ## The disc/track/year fallback chains of `read_tags` -/

/-- Disc number extraction: `get_string(&ItemKey::DiscNumber)` parsed as an
integer; else the same string with the `N/Total` rule; else the first of the
`DISCNUMBER`/`DISC`/`TPOS` dictionary entries, with the `N/Total` rule. -/
def discNumberOf (tag : TagSet) : Option Int :=
  (tag.discNumberStr.bind (fun s => parseI32 s)) <|>
  (tag.discNumberStr.bind slashNumerator) <|>
  (((lookupTag (allTagsOf tag) "DISCNUMBER") <|>
    (lookupTag (allTagsOf tag) "DISC") <|>
    (lookupTag (allTagsOf tag) "TPOS")).bind slashNumerator)

/-- Track number extraction: the structured `tag.track()` value cast `as i32`;
else `get_string(&ItemKey::TrackNumber)` with the `N/Total` rule; else the
first of the `TRACKNUMBER`/`TRACK`/`TRCK` dictionary entries, with the
`N/Total` rule. -/
def trackNumberOf (tag : TagSet) : Option Int :=
  (tag.trackVal.map asI32) <|>
  (tag.trackNumberStr.bind slashNumerator) <|>
  (((lookupTag (allTagsOf tag) "TRACKNUMBER") <|>
    (lookupTag (allTagsOf tag) "TRACK") <|>
    (lookupTag (allTagsOf tag) "TRCK")).bind slashNumerator)

/-- Year extraction: the structured `tag.year()` value cast `as i32`; else the
first of the `DATE`/`YEAR`/`TDRC`/`TYER` dictionary entries, parsed by taking
the first four characters when the value has length at least four and the
whole value otherwise. -/
def yearOf (tag : TagSet) : Option Int :=
  (tag.yearVal.map asI32) <|>
  (((lookupTag (allTagsOf tag) "DATE") <|>
    (lookupTag (allTagsOf tag) "YEAR") <|>
    (lookupTag (allTagsOf tag) "TDRC") <|>
    (lookupTag (allTagsOf tag) "TYER")).bind parseYearString)

/-! ## The persisted row and the `read_tags` result -/

/-- One row of the `track` table as `read_tags` populates it.  The table's
surrogate `id` (auto-increment, `NotSet` in every draft) and the three
album-art columns (never set by the scanner) are omitted; `path` is the
row's identity per the unique constraint of the migration. -/
structure Track where
  path : String
  extension : String
  title : String
  artist : String
  album : String
  discNumber : Option Int
  trackNumber : Option Int
  year : Option Int
  genre : String
  albumArtist : String
  publisher : String
  catalogNumber : String
  durationSeconds : Int
  audioBitrate : Int
  overallBitrate : Int
  sampleRate : Int
  bitDepth : Int
  channels : Int
  tags : List (String × String)
  created : Int
  modified : Int
deriving DecidableEq

/-- The typed failures of `read_tags`. -/
inductive TagError where
  | readTag
  | noTags
deriving DecidableEq

/-- Full outcome of running `read_tags`: a draft row, a typed failure, or a
Rust panic (which is not a value of the function's result type at all). -/
inductive ReadOutcome where
  | panicked
  | failed (e : TagError)
  | ok (t : Track)
deriving DecidableEq

/-- Model of `primary_tag()` with the `first_tag()` fallback. -/
def tagOf (primaryTag firstTag : Option TagSet) : Option TagSet :=
  match primaryTag with
  | some t => some t
  | none => firstTag

/-- Shallow embedding of `read_tags`.  The first statement evaluates
`metadata.created().unwrap()`, so a metadata block without a creation
timestamp panics before anything else happens.  `modified` was successfully
read by the caller from the same metadata, so its `unwrap()` cannot fail. -/
def readTagsOutcome (fe : FileEntry) : ReadOutcome :=
  match fe.createdTime with
  | none => ReadOutcome.panicked
  | some created =>
    match fe.content with
    | FileContent.probeFail => ReadOutcome.failed TagError.readTag
    | FileContent.audio props primaryTag firstTag =>
      match tagOf primaryTag firstTag with
      | none => ReadOutcome.failed TagError.noTags
      | some tag =>
        ReadOutcome.ok
          { path := fe.path
            extension := extensionOf fe.path
            title := tag.title.getD ""
            artist := tag.artist.getD ""
            album := tag.album.getD ""
            discNumber := discNumberOf tag
            trackNumber := trackNumberOf tag
            year := yearOf tag
            genre := tag.genre.getD ""
            albumArtist := tag.albumArtistStr.getD ""
            publisher := tag.publisherStr.getD ""
            catalogNumber := tag.catalogNumberStr.getD ""
            durationSeconds := asI32 props.durationSecs
            audioBitrate := asI32 (props.audioBitrate.getD 0)
            overallBitrate := asI32 (props.overallBitrate.getD 0)
            sampleRate := asI32 (props.sampleRate.getD 0)
            bitDepth := asI32 (props.bitDepth.getD 0)
            channels := asI32 (props.channels.getD 0)
            tags := allTagsOf tag
            created := created
            modified := fe.mtime }

/-- The successful draft of a file, if any; this is what the spawned task
sends through the channel. -/
def okTrack (fe : FileEntry) : Option Track :=
  match readTagsOutcome fe with
  | ReadOutcome.ok t => some t
  | _ => none

/-! ## The store and the batch upsert -/

/-- A database error, as surfaced by sea-orm. -/
structure DbErr where
  msg : String
deriving DecidableEq

/-- The store's unique constraint on `track.path` from the migration: no two
rows share a path. -/
def PathsNodup (s : List Track) : Prop :=
  (s.map (fun r => r.path)).Nodup

instance (s : List Track) : Decidable (PathsNodup s) := by
  unfold PathsNodup; infer_instance

/-- The `ON CONFLICT (path) DO UPDATE` column assignment of `upsert_tracks`:
exactly the columns listed in its `update_columns` call are overwritten with
the draft's values; `path`, `created` (and the omitted `id` / album-art
columns) are left untouched. -/
def applyDraft (old : Track) (d : Track) : Track :=
  { old with
    extension := d.extension
    title := d.title
    artist := d.artist
    album := d.album
    discNumber := d.discNumber
    trackNumber := d.trackNumber
    year := d.year
    genre := d.genre
    albumArtist := d.albumArtist
    publisher := d.publisher
    catalogNumber := d.catalogNumber
    durationSeconds := d.durationSeconds
    audioBitrate := d.audioBitrate
    overallBitrate := d.overallBitrate
    sampleRate := d.sampleRate
    bitDepth := d.bitDepth
    channels := d.channels
    tags := d.tags
    modified := d.modified }

/-- Upsert of one draft into the store: under the unique-path constraint at
most one row can conflict, and that row receives the `applyDraft` update;
otherwise the draft is inserted as a new row. -/
def upsertOne (s : List Track) (d : Track) : List Track :=
  match s with
  | [] => [d]
  | r :: rest => if r.path == d.path then applyDraft r d :: rest else r :: upsertOne rest d

/-- Model of `upsert_tracks`: `insert_many` with the on-conflict clause,
applied row by row over the batch. -/
def upsertTracks (batch : List Track) (s : List Track) : List Track :=
  List.foldl upsertOne s batch

/-- First row with the given path, if any. -/
def findByPath : List Track → String → Option Track
  | [], _ => none
  | r :: rest, p => if r.path == p then some r else findByPath rest p

/-- The stored modified timestamp for a path, as the change-detection queries
return it. -/
def lookupModified : List Track → String → Option Int
  | [], _ => none
  | r :: rest, p => if r.path == p then some r.modified else lookupModified rest p

/-! ## Change detection -/

/-- Lookup in a queried path-to-timestamp map. -/
def lookupPairs : List (String × Int) → String → Option Int
  | [], _ => none
  | (k, v) :: rest, p => if k == p then some v else lookupPairs rest p

/-- Model of `get_modified_times_for_paths`: the store rows whose path is in
the queried list, as a path-to-modified map. -/
def getModifiedTimesForPaths (s : List Track) (paths : List String) : List (String × Int) :=
  (s.filter (fun r => paths.contains r.path)).map (fun r => (r.path, r.modified))

/-- Model of `get_all_modified_by_path`: the whole store as a
path-to-modified map (the full-preload strategy). -/
def getAllModifiedByPath (s : List Track) : List (String × Int) :=
  s.map (fun r => (r.path, r.modified))

/-- The change decision applied to one candidate given a queried map `m`:
`modified > m.get(path).cloned().unwrap_or(DateTime::from(UNIX_EPOCH))`.
An absent path is defaulted to the Unix epoch (`0`). -/
def changedByMap (m : List (String × Int)) (fe : FileEntry) : Bool :=
  decide (fe.mtime > (lookupPairs m fe.path).getD 0)

/-- The same decision phrased against the store itself; the batched queries
are shown to reduce to this predicate. -/
def isChangedIn (s : List Track) (fe : FileEntry) : Bool :=
  decide (fe.mtime > (lookupModified s fe.path).getD 0)

/-- Splitting the collected file list into query batches, modelling
`file_paths.chunks(batch_size)`.  `budget` counts the remaining capacity of
the chunk being built (`cur`, kept reversed). -/
def chunkGo (n : Nat) : List FileEntry → List FileEntry → Nat → List (List FileEntry)
  | [], cur, _ => if cur.isEmpty then [] else [cur.reverse]
  | x :: xs, cur, 0 => cur.reverse :: chunkGo n xs [x] (n - 1)
  | x :: xs, cur, budget + 1 => chunkGo n xs (x :: cur) budget

def chunkList (n : Nat) (l : List FileEntry) : List (List FileEntry) :=
  if n = 0 then [] else chunkGo n l [] n

/-- Processing the sequence of change-detection batches in
`scan_dir_optimized`: each batch's paths are queried through `oracle`; on
success the batch's changed candidates are handed to extraction, on a
database error the error is logged (counted here) and the loop `continue`s
with the next batch.  Returns the candidates handed to extraction, in order,
and the number of logged batch-query errors. -/
def scanBatches (oracle : List String → Except DbErr (List (String × Int))) :
    List (List FileEntry) → List FileEntry × Nat
  | [] => ([], 0)
  | c :: rest =>
    let r := scanBatches oracle rest
    match oracle (c.map (fun fe => fe.path)) with
    | Except.ok m => (c.filter (changedByMap m) ++ r.1, r.2)
    | Except.error _ => (r.1, r.2 + 1)

/-- The oracle of a reachable database: each batch query succeeds and returns
exactly the stored timestamps for the queried paths. -/
def honestOracle (s : List Track) (paths : List String) :
    Except DbErr (List (String × Int)) :=
  Except.ok (getModifiedTimesForPaths s paths)

/-- The candidates `scan_dir_optimized` hands to extraction for a given store
snapshot, file list and path batch width. -/
def changedFilesModel (s : List Track) (files : List FileEntry) (pb : Nat) : List FileEntry :=
  (scanBatches (honestOracle s) (chunkList pb files)).1

/-- The candidates the non-optimized `scan_dir` strategy hands to extraction:
the full-preload map is fetched once and every file is compared against it. -/
def scanDirPlainChanged (s : List Track) (files : List FileEntry) : List FileEntry :=
  files.filter (fun fe => decide (fe.mtime > (lookupPairs (getAllModifiedByPath s) fe.path).getD 0))

/-- The drafts that reach the writer channel: successful extractions of the
changed candidates. -/
def extractedOf (files : List FileEntry) : List Track :=
  files.filterMap okTrack

/-! ## The batch writer and the sync entry point -/

/-- The writer loop of `scan_music_library` with an always-successful store:
received drafts accumulate on `stack`; a full stack is upserted and cleared;
a final nonempty stack is flushed after the channel closes. -/
def writerRun (wb : Nat) (store : List Track) (stack : List Track) :
    List Track → List Track
  | [] => if stack.isEmpty then store else upsertTracks stack store
  | t :: rest =>
    let stack2 := stack ++ [t]
    if wb ≤ stack2.length then writerRun wb (upsertTracks stack2 store) [] rest
    else writerRun wb store stack2 rest

/-- The writer loop with a fallible store: each flush goes through `oracle`
and a database error is returned immediately (the `?` operator on
`upsert_tracks`), aborting the run; on success the run returns the
`tracks_processed` count. -/
def writerRunE (wb : Nat) (oracle : List Track → Except DbErr Unit)
    (processed : Nat) (stack : List Track) : List Track → Except DbErr Nat
  | [] =>
    if stack.isEmpty then Except.ok processed
    else
      match oracle stack with
      | Except.ok _ => Except.ok processed
      | Except.error e => Except.error e
  | t :: rest =>
    let stack2 := stack ++ [t]
    if wb ≤ stack2.length then
      match oracle stack2 with
      | Except.ok _ => writerRunE wb oracle (processed + 1) [] rest
      | Except.error e => Except.error e
    else writerRunE wb oracle (processed + 1) stack2 rest

/-- The store contents after one full sync run over `files` with reachable
database: detection against the snapshot `s`, extraction of the changed
candidates, batched upserts by the writer. -/
def runStoreOf (s : List Track) (files : List FileEntry) (pb wb : Nat) : List Track :=
  writerRun wb s [] (extractedOf (changedFilesModel s files pb))

/-- Model of `scan_music_library` with a fallible upsert path: the result is
`ok tracks_processed`, or the first upsert error.  Per-file extraction
failures are filtered out before the channel and never touch the result. -/
def scanMusicLibraryModel (s : List Track) (files : List FileEntry) (pb wb : Nat)
    (oracle : List Track → Except DbErr Unit) : Except DbErr Nat :=
  writerRunE wb oracle 0 [] (extractedOf (changedFilesModel s files pb))

/-! ## Configuration and the concurrency model -/

/-- The recognized configuration surface, field for field from `ScanConfig` in
`scanner.rs`. -/
structure ScanConfig where
  music_path : String
  show_progress : Bool
  batch_size : Nat
  path_batch_size : Nat
  use_optimized_scanning : Bool
deriving DecidableEq

/-- The `Default` impl of `ScanConfig`. -/
def defaultScanConfig : ScanConfig :=
  { music_path := "/mnt/shucked/Music"
    show_progress := true
    batch_size := 100
    path_batch_size := 2500
    use_optimized_scanning := true }

/-- The extraction-concurrency ceiling a run actually uses:
`scan_dir_optimized` creates `Semaphore::new(50)` locally, so the ceiling is
the constant 50 whatever the configuration says. -/
def extractionCeiling (_cfg : ScanConfig) : Nat := 50

/-- Concurrency state of the extraction tasks spawned by
`scan_dir_optimized`: tasks waiting on the semaphore, extractions in flight
(permit held, `read_tags` running), and free permits. -/
structure PoolState where
  waiting : Nat
  inFlight : Nat
  permits : Nat
deriving DecidableEq

/-- Transitions of the optimized strategy's task pool: a waiting task may
start extracting only by taking a permit, and a finishing extraction returns
its permit (the `_permit` drop). -/
inductive OptStep : PoolState → PoolState → Prop
  | acquire (w f p : Nat) : OptStep ⟨w + 1, f, p + 1⟩ ⟨w, f + 1, p⟩
  | finish (w f p : Nat) : OptStep ⟨w, f + 1, p⟩ ⟨w, f, p + 1⟩

/-- Concurrency state of the tasks spawned by the fallback `scan_dir`
strategy: it acquires no permit, so a spawned task starts extracting
unconditionally. -/
structure PlainState where
  waiting : Nat
  inFlight : Nat
deriving DecidableEq

/-- Transitions of the fallback strategy's tasks: no semaphore guards the
start of an extraction. -/
inductive PlainStep : PlainState → PlainState → Prop
  | start (w f : Nat) : PlainStep ⟨w + 1, f⟩ ⟨w, f + 1⟩
  | finish (w f : Nat) : PlainStep ⟨w, f + 1⟩ ⟨w, f⟩

/-! ## Per-file task effects (logging and channel sends) -/

/-- Extensions lofty recognizes, modelling `lofty::file::FileType::from_path`
(an external library function used only to decide whether a per-file error is
worth logging). -/
def loftyKnownExtensions : List String :=
  ["aac", "aif", "aiff", "ape", "flac", "m4a", "m4b", "mp3", "mp4",
   "mpc", "ogg", "opus", "spx", "wav", "wv"]

def supportedByLofty (path : String) : Bool :=
  loftyKnownExtensions.contains (extensionOf path).toLower

/-- Observable effect of one spawned extraction task. -/
structure TaskEffect where
  sent : Option Track
  errorLogged : Bool
  panicked : Bool
deriving DecidableEq

/-- What the spawned task does with a file: a successful draft is sent into
the channel; a typed failure is logged only for supported file types; a panic
unwinds the detached task before any of the match arms run, so nothing is
sent and nothing is logged. -/
def taskEffect (fe : FileEntry) : TaskEffect :=
  match readTagsOutcome fe with
  | ReadOutcome.ok t => { sent := some t, errorLogged := false, panicked := false }
  | ReadOutcome.failed _ => { sent := none, errorLogged := supportedByLofty fe.path, panicked := false }
  | ReadOutcome.panicked => { sent := none, errorLogged := false, panicked := true }

/-! ## Definitions modelled from the spec, for comparison with the code -/

/-- Modelled from the spec: the claimed change-decision rule, under which a
candidate is changed iff its filesystem timestamp is strictly greater than
the store's value, or the path is absent from the store (absence standing for
the minimum representable timestamp, hence changed outright). -/
def specChangedRule (stored : Option Int) (mtime : Int) : Bool :=
  match stored with
  | some t => decide (mtime > t)
  | none => true

/-- Modelled from the spec: the claimed year fallback chain, identical in
shape to the disc/track chains — the structured field first, then the
alternate dictionary keys parsed with the slash-splitting numerator rule. -/
def specYearFallback (tag : TagSet) : Option Int :=
  (tag.yearVal.map asI32) <|>
  (((lookupTag (allTagsOf tag) "DATE") <|>
    (lookupTag (allTagsOf tag) "YEAR") <|>
    (lookupTag (allTagsOf tag) "TDRC") <|>
    (lookupTag (allTagsOf tag) "TYER")).bind slashNumerator)

/-! ## Helper definitions for the proofs and for concrete evaluations -/

/-- The last draft in a list carrying a given path; under the writer's
left-to-right upserts this is the draft whose values the store ends up
holding for that path. -/
def lastMatch : List Track → String → Option Track
  | [], _ => none
  | t :: rest, p =>
    match lastMatch rest p with
    | some u => some u
    | none => if t.path == p then some t else none

/-- A tag set with no items and every accessor absent. -/
def emptyTagSet : TagSet :=
  { items := []
    title := none
    artist := none
    album := none
    genre := none
    albumArtistStr := none
    publisherStr := none
    catalogNumberStr := none
    discNumberStr := none
    trackNumberStr := none
    trackVal := none
    yearVal := none }

/-- An audio-properties block with zero duration and no optional properties. -/
def emptyProps : AudioProps :=
  { durationSecs := 0
    audioBitrate := none
    overallBitrate := none
    sampleRate := none
    bitDepth := none
    channels := none }

/-- A candidate whose filesystem modified timestamp is exactly the Unix epoch. -/
def epochFile : FileEntry :=
  { path := "/m/a.mp3"
    createdTime := some 0
    mtime := 0
    content := FileContent.audio emptyProps (some emptyTagSet) none }

/-- A tag set whose only year source is a free-form `DATE` value in `N/Total`
shape (stored under a debug-wrapped unknown key, as lofty renders it). -/
def slashDateTagSet : TagSet :=
  { emptyTagSet with items := [{ keyDebug := "Unknown(\"DATE\")", value := some "20/12" }] }

/-- A probed file whose only track-number source is the literal string "0". -/
def zeroTrackFile : FileEntry :=
  { path := "/m/z.flac"
    createdTime := some 5
    mtime := 9
    content :=
      FileContent.audio emptyProps (some { emptyTagSet with trackNumberStr := some "0" }) none }

/-- A probed file carrying no disc, track or year source at all. -/
def bareFile : FileEntry :=
  { path := "/m/b.flac"
    createdTime := some 3
    mtime := 7
    content := FileContent.audio emptyProps (some emptyTagSet) none }

/-- A file whose filesystem metadata offers no creation timestamp. -/
def noCreatedFile : FileEntry :=
  { path := "/m/c.mp3"
    createdTime := none
    mtime := 4
    content := FileContent.audio emptyProps (some emptyTagSet) none }

/-- A readable file whose tag probe fails. -/
def corruptFile : FileEntry :=
  { path := "/m/d.mp3"
    createdTime := some 1
    mtime := 6
    content := FileContent.probeFail }

/-- A concrete database error. -/
def dbBoom : DbErr := { msg := "connection reset" }

/-- A detection oracle that fails exactly on the batch holding `bareFile`. -/
def flakyOracle : List String → Except DbErr (List (String × Int)) :=
  fun ps => if ps = [bareFile.path] then Except.error dbBoom else Except.ok []

/-- An upsert path on a reachable database. -/
def okUpsert : List Track → Except DbErr Unit :=
  fun _ => Except.ok ()

/-- An upsert path on an unreachable database. -/
def downUpsert : List Track → Except DbErr Unit :=
  fun _ => Except.error dbBoom

/-- A concrete stored row. -/
def storedTrack : Track :=
  { path := "/m/a.mp3"
    extension := "mp3"
    title := "Old Title"
    artist := "Old Artist"
    album := "Old Album"
    discNumber := some 1
    trackNumber := some 2
    year := some 1999
    genre := "old"
    albumArtist := "Old AA"
    publisher := "Old Pub"
    catalogNumber := "OLD-1"
    durationSeconds := 100
    audioBitrate := 128
    overallBitrate := 128
    sampleRate := 44100
    bitDepth := 16
    channels := 2
    tags := [("TITLE", "Old Title")]
    created := 10
    modified := 20 }

/-- A fresh draft for the same path as `storedTrack`. -/
def draftTrack : Track :=
  { storedTrack with
    title := "New Title"
    year := none
    tags := [("TITLE", "New Title")]
    created := 99
    modified := 30 }

/-! ## Helper lemmas: batched detection collapses to a per-store predicate -/

lemma chunkGo_flatten (n : Nat) :
    ∀ (l cur : List FileEntry) (k : Nat), (chunkGo n l cur k).flatten = cur.reverse ++ l := by
  intro l
  induction l with
  | nil =>
    intro cur k
    cases cur with
    | nil => simp [chunkGo]
    | cons a t => simp [chunkGo]
  | cons x xs ih =>
    intro cur k
    cases k with
    | zero => simp [chunkGo, ih]
    | succ b => simp [chunkGo, ih]

lemma chunkList_flatten (n : Nat) (l : List FileEntry) (h : 0 < n) :
    (chunkList n l).flatten = l := by
  unfold chunkList
  rw [if_neg (Nat.pos_iff_ne_zero.mp h)]
  simp [chunkGo_flatten]

lemma lookupPairs_getModified (s : List Track) (paths : List String) (p : String)
    (hp : p ∈ paths) :
    lookupPairs (getModifiedTimesForPaths s paths) p = lookupModified s p := by
  induction s with
  | nil => simp [getModifiedTimesForPaths, lookupPairs, lookupModified]
  | cons r rest ih =>
    unfold getModifiedTimesForPaths at ih ⊢
    by_cases hc : paths.contains r.path
    · simp only [List.filter_cons, hc, List.map_cons, lookupPairs, lookupModified]
      by_cases hb : r.path == p
      · simp [hb]
      · simp only [hb]
        exact ih
    · have hne : (r.path == p) = false := by
        apply beq_eq_false_iff_ne.mpr
        intro he
        subst he
        apply hc
        exact List.elem_iff.mpr hp
      simp only [List.filter_cons]
      rw [if_neg hc]
      rw [ih]
      simp [lookupModified, hne]

lemma filter_changedByMap_honest (s : List Track) (c : List FileEntry) :
    c.filter (changedByMap (getModifiedTimesForPaths s (c.map (fun fe => fe.path)))) =
      c.filter (isChangedIn s) := by
  apply List.filter_congr
  intro fe hfe
  unfold changedByMap isChangedIn
  rw [lookupPairs_getModified]
  exact List.mem_map_of_mem (fun fe => fe.path) hfe

lemma scanBatches_honest (s : List Track) (chunks : List (List FileEntry)) :
    scanBatches (honestOracle s) chunks =
      ((chunks.map (fun c => c.filter (isChangedIn s))).flatten, 0) := by
  induction chunks with
  | nil => simp [scanBatches]
  | cons c rest ih =>
    simp only [scanBatches, ih, honestOracle, List.map_cons, List.flatten_cons]
    rw [filter_changedByMap_honest]

lemma map_filter_flatten (chunks : List (List FileEntry)) (p : FileEntry → Bool) :
    (chunks.map (fun c => c.filter p)).flatten = chunks.flatten.filter p := by
  induction chunks with
  | nil => rfl
  | cons c rest ih =>
    simp only [List.map_cons, List.flatten_cons, List.filter_append, ih]

lemma changedFilesModel_eq (s : List Track) (files : List FileEntry) (pb : Nat)
    (hpb : 0 < pb) :
    changedFilesModel s files pb = files.filter (isChangedIn s) := by
  unfold changedFilesModel
  rw [scanBatches_honest, map_filter_flatten, chunkList_flatten _ _ hpb]

lemma lookupPairs_getAll (s : List Track) (p : String) :
    lookupPairs (getAllModifiedByPath s) p = lookupModified s p := by
  induction s with
  | nil => rfl
  | cons r rest ih =>
    unfold getAllModifiedByPath at ih ⊢
    simp only [List.map_cons, lookupPairs, lookupModified]
    by_cases hb : r.path == p
    · simp [hb]
    · simp only [hb]
      exact ih

lemma scanDirPlainChanged_eq (s : List Track) (files : List FileEntry) :
    scanDirPlainChanged s files = files.filter (isChangedIn s) := by
  unfold scanDirPlainChanged
  apply List.filter_congr
  intro fe _
  unfold isChangedIn
  rw [lookupPairs_getAll]

/-! ## Helper lemmas: the upsert -/

lemma applyDraft_path (r d : Track) : (applyDraft r d).path = r.path := rfl

lemma upsertOne_paths (s : List Track) (d : Track) :
    (upsertOne s d).map (fun r => r.path) =
      if s.any (fun r => r.path == d.path) then s.map (fun r => r.path)
      else s.map (fun r => r.path) ++ [d.path] := by
  induction s with
  | nil => simp [upsertOne]
  | cons a rest ih =>
    by_cases hb : (a.path == d.path) = true
    · simp [upsertOne, hb, applyDraft_path, List.any_cons]
    · simp only [upsertOne, List.any_cons]
      rw [if_neg hb]
      simp only [List.map_cons, ih]
      cases h2 : rest.any (fun r => r.path == d.path) <;> simp [hb, h2]

lemma upsertOne_pathsNodup (s : List Track) (d : Track) (h : PathsNodup s) :
    PathsNodup (upsertOne s d) := by
  unfold PathsNodup at h ⊢
  rw [upsertOne_paths]
  cases ha : s.any (fun r => r.path == d.path) with
  | true => exact h
  | false =>
    have hnm : d.path ∉ s.map (fun r => r.path) := by
      intro hm
      rcases List.mem_map.mp hm with ⟨r, hr, hrp⟩
      have hfalse := List.any_eq_false.mp ha r hr
      exact hfalse (beq_iff_eq.mpr hrp)
    simp [List.nodup_append, h, hnm]

lemma upsertTracks_pathsNodup (batch s : List Track) (h : PathsNodup s) :
    PathsNodup (upsertTracks batch s) := by
  induction batch generalizing s with
  | nil => exact h
  | cons b rest ih =>
    unfold upsertTracks at ih ⊢
    rw [List.foldl_cons]
    exact ih (upsertOne s b) (upsertOne_pathsNodup s b h)

lemma findByPath_upsertOne_existing (s : List Track) (d r : Track)
    (h : PathsNodup s) (hr : r ∈ s) (hp : d.path = r.path) :
    findByPath (upsertOne s d) r.path = some (applyDraft r d) := by
  induction s with
  | nil => cases hr
  | cons a rest ih =>
    rw [PathsNodup, List.map_cons, List.nodup_cons] at h
    rcases List.mem_cons.mp hr with he | hm
    · subst he
      have hb : (r.path == d.path) = true := beq_iff_eq.mpr hp.symm
      simp only [upsertOne, hb, if_true, findByPath, applyDraft_path, beq_self_eq_true]
    · have hne : a.path ≠ r.path := by
        intro he
        exact h.1 (he ▸ List.mem_map_of_mem (fun t => t.path) hm)
      have hb : (a.path == d.path) = false := by
        apply beq_eq_false_iff_ne.mpr
        rw [hp]
        exact hne
      have hb2 : (a.path == r.path) = false := beq_eq_false_iff_ne.mpr hne
      simp only [upsertOne, hb, Bool.false_eq_true, if_false, findByPath, hb2]
      exact ih h.2 hm

lemma upsertOne_length_existing (s : List Track) (d r : Track)
    (hr : r ∈ s) (hp : d.path = r.path) :
    (upsertOne s d).length = s.length := by
  induction s with
  | nil => cases hr
  | cons a rest ih =>
    by_cases hb : (a.path == d.path) = true
    · simp [upsertOne, hb]
    · rcases List.mem_cons.mp hr with he | hm
      · subst he
        exact absurd (beq_iff_eq.mpr hp.symm) hb
      · simp only [upsertOne, hb, Bool.false_eq_true, if_false, List.length_cons]
        rw [ih hm]

lemma lookupModified_upsertOne (s : List Track) (d : Track) (p : String) :
    lookupModified (upsertOne s d) p =
      if d.path == p then some d.modified else lookupModified s p := by
  induction s with
  | nil => simp [upsertOne, lookupModified]
  | cons a rest ih =>
    by_cases hb : (a.path == d.path) = true
    · have he : a.path = d.path := eq_of_beq hb
      simp only [upsertOne, hb, if_true]
      by_cases hdp : (d.path == p) = true
      · simp [lookupModified, applyDraft, he, hdp]
      · simp [lookupModified, applyDraft, he, hdp]
    · simp only [upsertOne, hb, Bool.false_eq_true, if_false, lookupModified, ih]
      by_cases hdp : (d.path == p) = true
      · have : (a.path == p) = false := by
          apply beq_eq_false_iff_ne.mpr
          intro he
          exact hb (beq_iff_eq.mpr (he.trans (eq_of_beq hdp).symm))
        simp [hdp, this]
      · simp [hdp]

lemma lookupModified_foldl (ts : List Track) :
    ∀ (s : List Track) (p : String),
      lookupModified (List.foldl upsertOne s ts) p =
        match lastMatch ts p with
        | some u => some u.modified
        | none => lookupModified s p := by
  induction ts with
  | nil => intro s p; rfl
  | cons t rest ih =>
    intro s p
    rw [List.foldl_cons, ih]
    cases hl : lastMatch rest p with
    | some u => simp [lastMatch, hl]
    | none =>
      simp only [lastMatch, hl, lookupModified_upsertOne]
      by_cases hb : (t.path == p) = true
      · simp [hb]
      · simp [hb]

/-! ## Helper lemmas: the writer loop -/

lemma writerRun_eq_foldl (wb : Nat) :
    ∀ (ts stack store : List Track),
      writerRun wb store stack ts = List.foldl upsertOne store (stack ++ ts) := by
  intro ts
  induction ts with
  | nil =>
    intro stack store
    cases stack with
    | nil => simp [writerRun]
    | cons a t => simp [writerRun, upsertTracks]
  | cons t rest ih =>
    intro stack store
    by_cases hf : wb ≤ (stack ++ [t]).length
    · simp only [writerRun, hf, if_true, upsertTracks, ih, List.nil_append]
      rw [← List.foldl_append]
      simp
    · simp only [writerRun, hf, if_false, ih]
      simp

/-! ## Helper lemmas: extraction results -/

lemma okTrack_fields (fe : FileEntry) (t : Track) (h : okTrack fe = some t) :
    t.path = fe.path ∧ t.modified = fe.mtime := by
  rcases fe with ⟨path, created, mtime, content⟩
  cases created with
  | none => simp [okTrack, readTagsOutcome] at h
  | some c =>
    cases content with
    | probeFail => simp [okTrack, readTagsOutcome] at h
    | audio props pt ft =>
      cases ht : tagOf pt ft with
      | none => simp [okTrack, readTagsOutcome, ht] at h
      | some tag =>
        simp only [okTrack, readTagsOutcome, ht, Option.some.injEq] at h
        subst h
        exact ⟨rfl, rfl⟩

lemma okTrack_path_mem (l : List FileEntry) (t : Track)
    (h : t ∈ List.filterMap okTrack l) : t.path ∈ l.map (fun fe => fe.path) := by
  rcases List.mem_filterMap.mp h with ⟨fe, hfe, hok⟩
  rw [(okTrack_fields fe t hok).1]
  exact List.mem_map_of_mem _ hfe

lemma lastMatch_none (l : List Track) (p : String) (h : ∀ t ∈ l, (t.path == p) = false) :
    lastMatch l p = none := by
  induction l with
  | nil => rfl
  | cons t rest ih =>
    simp only [lastMatch, ih (fun u hu => h u (List.mem_cons_of_mem t hu))]
    simp [h t (List.mem_cons_self t rest)]

lemma lastMatch_filterMap_notmem (q : FileEntry → Bool) (l : List FileEntry) (p : String)
    (h : p ∉ l.map (fun fe => fe.path)) :
    lastMatch (List.filterMap okTrack (l.filter q)) p = none := by
  apply lastMatch_none
  intro t ht
  apply beq_eq_false_iff_ne.mpr
  intro he
  apply h
  rw [← he]
  rcases List.mem_map.mp (okTrack_path_mem _ t ht) with ⟨fe, hfe, hp2⟩
  rw [← hp2]
  exact List.mem_map_of_mem _ (List.mem_of_mem_filter hfe)

lemma lastMatch_extracted (q : FileEntry → Bool) :
    ∀ (files : List FileEntry), (files.map (fun fe => fe.path)).Nodup →
      ∀ fe ∈ files,
        lastMatch (List.filterMap okTrack (files.filter q)) fe.path =
          if q fe then okTrack fe else none := by
  intro files
  induction files with
  | nil => intro _ fe hfe; cases hfe
  | cons g rest ih =>
    intro hnd fe hfe
    rw [List.map_cons, List.nodup_cons] at hnd
    rcases List.mem_cons.mp hfe with he | hm
    · subst he
      cases hqg : q fe with
      | false =>
        simp only [List.filter_cons, hqg, Bool.false_eq_true, if_false]
        rw [lastMatch_filterMap_notmem q rest fe.path hnd.1]
      | true =>
        simp only [List.filter_cons, hqg, if_true, List.filterMap_cons]
        cases hok : okTrack fe with
        | none =>
          simp only [hok]
          rw [lastMatch_filterMap_notmem q rest fe.path hnd.1]
        | some t =>
          simp only [hok, lastMatch]
          rw [lastMatch_filterMap_notmem q rest fe.path hnd.1]
          have hbt : (t.path == fe.path) = true :=
            beq_iff_eq.mpr (okTrack_fields fe t hok).1
          simp [hbt, hqg, hok]
    · have hgne : fe.path ∈ rest.map (fun x => x.path) :=
        List.mem_map_of_mem _ hm
      have hrest := ih hnd.2 fe hm
      cases hqg : q g with
      | false =>
        simp only [List.filter_cons, hqg, Bool.false_eq_true, if_false]
        exact hrest
      | true =>
        simp only [List.filter_cons, hqg, if_true, List.filterMap_cons]
        cases hok : okTrack g with
        | none =>
          simp only [hok]
          exact hrest
        | some t =>
          have hbt : (t.path == fe.path) = false := by
            apply beq_eq_false_iff_ne.mpr
            rw [(okTrack_fields g t hok).1]
            intro he2
            exact hnd.1 (he2 ▸ hgne)
          simp only [hok, lastMatch, hrest]
          cases hq2 : q fe with
          | false => simp [hbt]
          | true =>
            cases hok2 : okTrack fe with
            | none => simp [hbt]
            | some u => simp

/-! ## Helper lemmas: the fallible writer -/

lemma writerRunE_ok (wb : Nat) (oracle : List Track → Except DbErr Unit)
    (h : ∀ b, oracle b = Except.ok ()) :
    ∀ (ts : List Track) (processed : Nat) (stack : List Track),
      writerRunE wb oracle processed stack ts = Except.ok (processed + ts.length) := by
  intro ts
  induction ts with
  | nil =>
    intro processed stack
    simp only [writerRunE]
    split
    · rfl
    · simp [h]
  | cons t rest ih =>
    intro processed stack
    simp only [writerRunE]
    split
    · rw [h]
      show writerRunE wb oracle (processed + 1) [] rest = Except.ok (processed + (t :: rest).length)
      rw [ih]
      congr 1
      simp only [List.length_cons]
      omega
    · rw [ih]
      congr 1
      simp only [List.length_cons]
      omega

lemma writerRunE_allError (wb : Nat) (oracle : List Track → Except DbErr Unit) (e : DbErr)
    (h : ∀ b, oracle b = Except.error e) :
    ∀ (ts : List Track) (processed : Nat) (stack : List Track),
      stack ≠ [] ∨ ts ≠ [] →
      writerRunE wb oracle processed stack ts = Except.error e := by
  intro ts
  induction ts with
  | nil =>
    intro processed stack hne
    rcases hne with hs | ht
    · cases stack with
      | nil => exact absurd rfl hs
      | cons a t2 =>
        simp only [writerRunE, List.isEmpty_cons, Bool.false_eq_true, if_false]
        rw [h]
    · exact absurd rfl ht
  | cons t rest ih =>
    intro processed stack _
    simp only [writerRunE]
    split
    · rw [h]
    · exact ih _ _ (Or.inl (by simp))

/-! ## Helper lemma: after a run, no file of the same tree is extracted again -/

lemma secondRun_no_extraction (store : List Track) (files : List FileEntry)
    (hnd : (files.map (fun fe => fe.path)).Nodup) :
    extractedOf (files.filter (isChangedIn
      (List.foldl upsertOne store (extractedOf (files.filter (isChangedIn store)))))) = [] := by
  unfold extractedOf
  rw [List.filterMap_eq_nil_iff]
  intro fe hfe
  rcases List.mem_filter.mp hfe with ⟨hmem, hch⟩
  cases hok : okTrack fe with
  | none => rfl
  | some t =>
    exfalso
    have hmod := (okTrack_fields fe t hok).2
    have hlook : lookupModified
        (List.foldl upsertOne store (List.filterMap okTrack (files.filter (isChangedIn store))))
        fe.path =
        if isChangedIn store fe then some t.modified else lookupModified store fe.path := by
      rw [lookupModified_foldl]
      rw [lastMatch_extracted (isChangedIn store) files hnd fe hmem]
      cases hc1 : isChangedIn store fe with
      | false => simp
      | true => simp [hok]
    have hch2 : decide (fe.mtime >
        (lookupModified
          (List.foldl upsertOne store (List.filterMap okTrack (files.filter (isChangedIn store))))
          fe.path).getD 0) = true := hch
    rw [hlook] at hch2
    by_cases hc0 : isChangedIn store fe = true
    · rw [if_pos hc0, hmod] at hch2
      simp at hch2
    · rw [if_neg hc0] at hch2
      exact hc0 hch2

/-! ## Helper lemmas: the concurrency models -/

lemma optStep_invariant {s t : PoolState} (h : OptStep s t) :
    t.inFlight + t.permits = s.inFlight + s.permits := by
  cases h <;> simp <;> omega

lemma optReach_invariant (pending ceiling : Nat) (s : PoolState)
    (h : Relation.ReflTransGen OptStep ⟨pending, 0, ceiling⟩ s) :
    s.inFlight + s.permits = ceiling := by
  induction h with
  | refl => simp
  | tail _ hbc ih => rw [optStep_invariant hbc, ih]

lemma plainReach (k : Nat) : ∀ (w f : Nat),
    Relation.ReflTransGen PlainStep ⟨w + k, f⟩ ⟨w, f + k⟩ := by
  induction k with
  | zero => intro w f; exact Relation.ReflTransGen.refl
  | succ n ih =>
    intro w f
    have h1 : PlainStep ⟨w + (n + 1), f⟩ ⟨w + n, f + 1⟩ := PlainStep.start (w + n) f
    have h2 := ih w (f + 1)
    have h3 : (⟨w, f + 1 + n⟩ : PlainState) = ⟨w, f + (n + 1)⟩ := by
      congr 1
      omega
    exact Relation.ReflTransGen.head h1 (h3 ▸ h2)

/-! ## Claim C1 -/

/-- C1 counterexample: a candidate whose path is absent from the store but
whose filesystem timestamp is the Unix epoch.  The claimed rule (changed iff
strictly newer than the stored value, or absent from the store) classifies it
as changed, yet the scan classifies it as unchanged, because the code
substitutes the Unix epoch — not the minimum representable timestamp — for an
absent path and `0 > 0` fails. -/
theorem change_rule_absent_epoch_counterexample :
    specChangedRule (lookupModified ([] : List Track) epochFile.path) epochFile.mtime = true ∧
    changedFilesModel ([] : List Track) [epochFile] 1 = [] := by
  constructor
  · rfl
  · rfl

/-- C1 amended: both change-detection strategies classify a candidate as
changed exactly when its filesystem timestamp is strictly greater than the
stored timestamp with an absent path defaulted to the Unix epoch; a candidate
whose timestamp equals the stored value is unchanged and not extracted, and a
candidate absent from the store is changed only when its timestamp is
strictly after the epoch. -/
theorem change_detection_rule_amended (store : List Track) (files : List FileEntry) (pb : Nat)
    (hpb : 0 < pb) :
    changedFilesModel store files pb = files.filter (isChangedIn store) ∧
    scanDirPlainChanged store files = files.filter (isChangedIn store) ∧
    (∀ fe : FileEntry, lookupModified store fe.path = some fe.mtime →
      isChangedIn store fe = false) ∧
    (∀ fe : FileEntry, lookupModified store fe.path = none →
      (isChangedIn store fe = true ↔ 0 < fe.mtime)) := by
  refine ⟨changedFilesModel_eq store files pb hpb, scanDirPlainChanged_eq store files, ?_, ?_⟩
  · intro fe h
    unfold isChangedIn
    rw [h]
    simp
  · intro fe h
    unfold isChangedIn
    rw [h]
    simp

/-- C1 witness. -/
theorem change_detection_rule_amended_witness :
    changedFilesModel ([] : List Track) [epochFile] 2500 =
      [epochFile].filter (isChangedIn []) :=
  (change_detection_rule_amended [] [epochFile] 2500 (by decide)).1

/-! ## Claim C2 -/

/-- C2: running the sync twice against an unchanged tree produces zero
records on the second run — the second run extracts nothing and leaves the
store exactly as the first run left it. -/
theorem second_scan_is_noop (store : List Track) (files : List FileEntry) (pb wb : Nat)
    (hpb : 0 < pb) (hnd : (files.map (fun fe => fe.path)).Nodup) :
    extractedOf (changedFilesModel (runStoreOf store files pb wb) files pb) = [] ∧
    runStoreOf (runStoreOf store files pb wb) files pb wb = runStoreOf store files pb wb := by
  have hs1 : runStoreOf store files pb wb =
      List.foldl upsertOne store (extractedOf (files.filter (isChangedIn store))) := by
    unfold runStoreOf
    rw [changedFilesModel_eq store files pb hpb, writerRun_eq_foldl]
    simp
  have hnil : extractedOf (changedFilesModel (runStoreOf store files pb wb) files pb) = [] := by
    rw [changedFilesModel_eq _ files pb hpb, hs1]
    exact secondRun_no_extraction store files hnd
  refine ⟨hnil, ?_⟩
  show writerRun wb (runStoreOf store files pb wb) []
      (extractedOf (changedFilesModel (runStoreOf store files pb wb) files pb)) =
    runStoreOf store files pb wb
  rw [hnil]
  rfl

/-- C2 witness. -/
theorem second_scan_is_noop_witness :
    extractedOf (changedFilesModel (runStoreOf [] [bareFile] 1 1) [bareFile] 1) = [] :=
  (second_scan_is_noop [] [bareFile] 1 1 (by decide) (by decide)).1

/-! ## Claim C3 -/

/-- C3: under the store's unique-path constraint a batch upsert never creates
a duplicate row for an existing path (uniqueness is preserved and an upsert
of an existing path does not grow the store), and for a conflicting draft the
row is overwritten in exactly the mutable columns while `path` and the
original `created` timestamp are kept. -/
theorem upsert_unique_path_and_frame (s batch : List Track) (d r : Track)
    (h : PathsNodup s) (hr : r ∈ s) (hpd : d.path = r.path) :
    PathsNodup (upsertTracks batch s) ∧
    (upsertOne s d).length = s.length ∧
    findByPath (upsertOne s d) r.path =
      some { path := r.path
             extension := d.extension
             title := d.title
             artist := d.artist
             album := d.album
             discNumber := d.discNumber
             trackNumber := d.trackNumber
             year := d.year
             genre := d.genre
             albumArtist := d.albumArtist
             publisher := d.publisher
             catalogNumber := d.catalogNumber
             durationSeconds := d.durationSeconds
             audioBitrate := d.audioBitrate
             overallBitrate := d.overallBitrate
             sampleRate := d.sampleRate
             bitDepth := d.bitDepth
             channels := d.channels
             tags := d.tags
             created := r.created
             modified := d.modified } := by
  refine ⟨upsertTracks_pathsNodup batch s h, upsertOne_length_existing s d r hr hpd, ?_⟩
  rw [findByPath_upsertOne_existing s d r h hr hpd]
  rfl

/-- C3 witness. -/
theorem upsert_unique_path_and_frame_witness :
    PathsNodup (upsertTracks [draftTrack] [storedTrack]) :=
  (upsert_unique_path_and_frame [storedTrack] [draftTrack] draftTrack storedTrack
    (by decide) (by decide) rfl).1

/-! ## Claim C4 -/

/-- C4 counterexample: under the fallback `scan_dir` strategy, with 51
pending changed candidates, a state with 51 extractions simultaneously in
flight is reachable — more than the ceiling of 50 that the run would use. -/
theorem plain_scan_exceeds_ceiling :
    Relation.ReflTransGen PlainStep ⟨51, 0⟩ ⟨0, 51⟩ ∧
    extractionCeiling { defaultScanConfig with use_optimized_scanning := false } < 51 := by
  constructor
  · exact plainReach 51 0 0
  · decide

/-- C4 amended: under the optimized strategy the semaphore's 50 permits bound
the number of simultaneously in-flight extractions by 50 in every reachable
state, however many candidates are pending; the fallback `scan_dir` strategy
enforces no such ceiling. -/
theorem optimized_scan_respects_ceiling (cfg : ScanConfig) (pending : Nat) (s : PoolState)
    (h : Relation.ReflTransGen OptStep ⟨pending, 0, extractionCeiling cfg⟩ s) :
    s.inFlight ≤ extractionCeiling cfg := by
  have hinv := optReach_invariant pending (extractionCeiling cfg) s h
  omega

/-- C4 witness. -/
theorem optimized_scan_respects_ceiling_witness :
    (⟨51, 0, extractionCeiling defaultScanConfig⟩ : PoolState).inFlight ≤
      extractionCeiling defaultScanConfig :=
  optimized_scan_respects_ceiling defaultScanConfig 51 _ Relation.ReflTransGen.refl

/-! ## Claim C5 -/

/-- C5: when the store query for one change-detection batch fails, the error
is logged and exactly that batch is skipped: the failed batch contributes no
candidates to extraction (it is not treated as all-changed), and every other
batch of the run is processed exactly as it would have been without the
failure — the run continues rather than aborting. -/
theorem detect_failure_batch_skipped
    (oracle : List String → Except DbErr (List (String × Int)))
    (pre post : List (List FileEntry)) (c : List FileEntry) (e : DbErr)
    (h : oracle (c.map (fun fe => fe.path)) = Except.error e) :
    (scanBatches oracle (pre ++ c :: post)).1 =
      (scanBatches oracle pre).1 ++ (scanBatches oracle post).1 ∧
    (scanBatches oracle (pre ++ c :: post)).2 =
      (scanBatches oracle pre).2 + (scanBatches oracle post).2 + 1 := by
  induction pre with
  | nil =>
    simp only [List.nil_append, scanBatches, h]
    constructor
    · simp
    · simp
  | cons a pre ih =>
    cases ha : oracle (a.map (fun fe => fe.path)) with
    | ok m =>
      simp only [List.cons_append, scanBatches, ha, List.append_eq]
      constructor
      · rw [ih.1, List.append_assoc]
      · exact ih.2
    | error e2 =>
      simp only [List.cons_append, scanBatches, ha, List.append_eq]
      constructor
      · exact ih.1
      · rw [ih.2]
        omega

/-- C5 witness. -/
theorem detect_failure_batch_skipped_witness :
    (scanBatches flakyOracle ([[epochFile]] ++ [bareFile] :: [[zeroTrackFile]])).1 =
      (scanBatches flakyOracle [[epochFile]]).1 ++ (scanBatches flakyOracle [[zeroTrackFile]]).1 :=
  (detect_failure_batch_skipped flakyOracle [[epochFile]] [[zeroTrackFile]] [bareFile] dbBoom
    rfl).1

/-! ## Claim C6 -/

/-- C6: a store error during a batch upsert is fatal — with the store down,
the sync entry point returns that error instead of a result as soon as there
is anything to flush; with the store reachable, the run returns `ok` with the
processed count, whatever per-file extraction failures occurred along the
way. -/
theorem upsert_failure_fatal_extraction_nonfatal (store : List Track)
    (files : List FileEntry) (pb wb : Nat) (oracle : List Track → Except DbErr Unit)
    (e : DbErr) :
    ((∀ b, oracle b = Except.ok ()) →
      scanMusicLibraryModel store files pb wb oracle =
        Except.ok (extractedOf (changedFilesModel store files pb)).length) ∧
    ((∀ b, oracle b = Except.error e) →
      extractedOf (changedFilesModel store files pb) ≠ [] →
      scanMusicLibraryModel store files pb wb oracle = Except.error e) := by
  constructor
  · intro h
    unfold scanMusicLibraryModel
    rw [writerRunE_ok wb oracle h]
    simp
  · intro h hne
    unfold scanMusicLibraryModel
    exact writerRunE_allError wb oracle e h _ 0 [] (Or.inr hne)

/-- C6 witness: a run over one extractable file and one file whose tag probe
fails, against an unreachable store, returns the database error. -/
theorem upsert_failure_fatal_extraction_nonfatal_witness :
    scanMusicLibraryModel [] [bareFile, corruptFile] 1 1 downUpsert = Except.error dbBoom :=
  (upsert_failure_fatal_extraction_nonfatal [] [bareFile, corruptFile] 1 1 downUpsert
    dbBoom).2 (fun _ => rfl) (by decide)

/-! ## Claim C7 -/

/-- C7 counterexample: a tag set whose only year source is the free-form
`DATE` value "20/12".  The claimed chain (same slash-splitting rule as disc
and track) yields 20, but the code's year extraction takes the first four
characters "20/1", fails to parse them, and yields nothing; meanwhile the
same value in the track-number position would slash-split to 3, confirming
the chains differ. -/
theorem year_chain_counterexample :
    yearOf slashDateTagSet = none ∧
    specYearFallback slashDateTagSet = some 20 ∧
    trackNumberOf { emptyTagSet with trackNumberStr := some "3/12" } = some 3 := by
  refine ⟨rfl, rfl, rfl⟩

/-- C7 amended: the year is derived from the structured year field first and
otherwise from the `DATE`/`YEAR`/`TDRC`/`TYER` dictionary entries, whose first
hit is parsed by taking its first four characters when it is at least four
characters long (the whole value otherwise) — a prefix rule, not the
slash-splitting numerator rule of disc and track, and with no intermediate
string-field step. -/
theorem year_chain_amended (tag : TagSet) :
    (∀ y, tag.yearVal = some y → yearOf tag = some (asI32 y)) ∧
    (tag.yearVal = none →
      yearOf tag =
        (((lookupTag (allTagsOf tag) "DATE") <|>
          (lookupTag (allTagsOf tag) "YEAR") <|>
          (lookupTag (allTagsOf tag) "TDRC") <|>
          (lookupTag (allTagsOf tag) "TYER")).bind parseYearString)) ∧
    parseYearString "2004-06-01" = some 2004 ∧
    parseYearString "20/12" = none ∧
    slashNumerator "20/12" = some 20 := by
  refine ⟨?_, ?_, rfl, rfl, rfl⟩
  · intro y hy
    unfold yearOf
    rw [hy]
    rfl
  · intro hy
    unfold yearOf
    rw [hy]
    rfl

/-- C7 witness. -/
theorem year_chain_amended_witness :
    yearOf slashDateTagSet =
      (((lookupTag (allTagsOf slashDateTagSet) "DATE") <|>
        (lookupTag (allTagsOf slashDateTagSet) "YEAR") <|>
        (lookupTag (allTagsOf slashDateTagSet) "TDRC") <|>
        (lookupTag (allTagsOf slashDateTagSet) "TYER")).bind parseYearString) :=
  (year_chain_amended slashDateTagSet).2.1 rfl

/-! ## Claim C8 -/

/-- C8: when no tag source yields a disc number, track number or year, the
persisted draft carries `none` in those columns — never a zero sentinel —
while a track number actually parsed from the literal tag value "0" is stored
as the valid value zero. -/
theorem missing_numeric_tags_absent_not_zero
    (fe : FileEntry) (props : AudioProps) (pt ft : Option TagSet) (tag : TagSet) (created : Int)
    (hc : fe.createdTime = some created)
    (hcont : fe.content = FileContent.audio props pt ft)
    (ht : tagOf pt ft = some tag)
    (hd1 : tag.discNumberStr = none)
    (hd2 : lookupTag (allTagsOf tag) "DISCNUMBER" = none)
    (hd3 : lookupTag (allTagsOf tag) "DISC" = none)
    (hd4 : lookupTag (allTagsOf tag) "TPOS" = none)
    (ht1 : tag.trackVal = none)
    (ht2 : tag.trackNumberStr = none)
    (ht3 : lookupTag (allTagsOf tag) "TRACKNUMBER" = none)
    (ht4 : lookupTag (allTagsOf tag) "TRACK" = none)
    (ht5 : lookupTag (allTagsOf tag) "TRCK" = none)
    (hy1 : tag.yearVal = none)
    (hy2 : lookupTag (allTagsOf tag) "DATE" = none)
    (hy3 : lookupTag (allTagsOf tag) "YEAR" = none)
    (hy4 : lookupTag (allTagsOf tag) "TDRC" = none)
    (hy5 : lookupTag (allTagsOf tag) "TYER" = none) :
    (∃ tr, readTagsOutcome fe = ReadOutcome.ok tr ∧
      tr.discNumber = none ∧ tr.trackNumber = none ∧ tr.year = none) ∧
    (∃ tr0, readTagsOutcome zeroTrackFile = ReadOutcome.ok tr0 ∧
      tr0.trackNumber = some 0) := by
  constructor
  · unfold readTagsOutcome
    simp only [hc, hcont, ht]
    refine ⟨_, rfl, ?_, ?_, ?_⟩
    · unfold discNumberOf
      rw [hd1, hd2, hd3, hd4]
      rfl
    · unfold trackNumberOf
      rw [ht1, ht2, ht3, ht4, ht5]
      rfl
    · unfold yearOf
      rw [hy1, hy2, hy3, hy4, hy5]
      rfl
  · exact ⟨_, rfl, rfl⟩

/-- C8 witness. -/
theorem missing_numeric_tags_absent_not_zero_witness :
    ∃ tr, readTagsOutcome bareFile = ReadOutcome.ok tr ∧
      tr.discNumber = none ∧ tr.trackNumber = none ∧ tr.year = none :=
  (missing_numeric_tags_absent_not_zero bareFile emptyProps (some emptyTagSet) none
    emptyTagSet 3 rfl rfl rfl rfl rfl rfl rfl rfl rfl rfl rfl rfl rfl rfl rfl rfl rfl).1

/-! ## Claim C9 -/

/-- C9 counterexample: the configuration surface has no extraction-concurrency
option — whatever numeric values a caller supplies anywhere in `ScanConfig`,
the run's ceiling is the constant 50, so no supplied value is ever used as
the ceiling. -/
theorem config_has_no_ceiling_counterexample :
    extractionCeiling ⟨"/a", false, 999, 777, true⟩ = 50 ∧
    extractionCeiling defaultScanConfig = 50 ∧
    (50 : Nat) ≠ 999 ∧ (50 : Nat) ≠ 777 := by
  refine ⟨rfl, rfl, by decide, by decide⟩

/-- C9 amended: the recognized configuration surface is root path, progress
toggle, writer batch size, change-detection batch width and strategy choice;
it contains no extraction-concurrency option, and the optimized scan's
ceiling is the hardcoded 50 for every configuration. -/
theorem ceiling_constant_fifty (cfg : ScanConfig) : extractionCeiling cfg = 50 := rfl

/-! ## Claim C10 -/

/-- C10: a file whose filesystem metadata offers no creation timestamp makes
`read_tags` panic (`metadata.created().unwrap()`) rather than return one of
its typed failures; the detached task therefore sends nothing and logs no
per-file error, the file is dropped, and the run still completes normally. -/
theorem created_missing_panics (fe : FileEntry) (h : fe.createdTime = none) :
    readTagsOutcome fe = ReadOutcome.panicked ∧
    (∀ e, readTagsOutcome fe ≠ ReadOutcome.failed e) ∧
    okTrack fe = none ∧
    taskEffect fe = { sent := none, errorLogged := false, panicked := true } ∧
    (∀ (store : List Track) (files : List FileEntry) (pb wb : Nat),
      scanMusicLibraryModel store (fe :: files) pb wb okUpsert =
        Except.ok (extractedOf (changedFilesModel store (fe :: files) pb)).length) := by
  have hp : readTagsOutcome fe = ReadOutcome.panicked := by
    unfold readTagsOutcome
    rw [h]
  refine ⟨hp, ?_, ?_, ?_, ?_⟩
  · intro e he
    rw [hp] at he
    cases he
  · unfold okTrack
    rw [hp]
  · unfold taskEffect
    rw [hp]
  · intro store files pb wb
    unfold scanMusicLibraryModel
    rw [writerRunE_ok wb okUpsert (fun _ => rfl)]
    simp

/-- C10 witness. -/
theorem created_missing_panics_witness :
    readTagsOutcome noCreatedFile = ReadOutcome.panicked :=
  (created_missing_panics noCreatedFile rfl).1

end Ongaku
